import Mathlib

/-!
Shallow embedding of src/IPGP_detection.py (function annual_ipgp).

The Python function cumulative-sums a daily fluorescence series, fits a
degree-1 least-squares slope over a sliding window for each of the 366
day-of-year indices, thresholds the slopes against their median, collects
the qualifying indices with np.where, and converts the result to a calendar
date with datetime arithmetic.

Numeric values are modelled as rationals (exact arithmetic semantics of the
floating-point program).  The straight-line body of annual_ipgp is modelled
as a record of the locals it binds together with an `Except` outcome: the
date-conversion line `date(year,1,1)+datetime.timedelta(days=d)` receives
the whole numpy index array `d`, which raises a TypeError whenever `d` is
not convertible to a scalar.

Note on the source text: lines 47 and 50 of IPGP_detection.py
(`data_cumul=np.cumsum(data)` and `n=np.arange(0,366,1)`) are dedented in
the file; we read them as part of the function body, as the surrounding
code, the docstring and the comments intend.
-/

namespace IPGP

/-- np.cumsum with a running accumulator: cumsumFrom acc l is the list of
partial sums acc + l[0], acc + l[0] + l[1], ... -/
def cumsumFrom (acc : ℚ) : List ℚ → List ℚ
  | [] => []
  | x :: xs => (acc + x) :: cumsumFrom (acc + x) xs

/-- Embedding of np.cumsum(data): running cumulative sums, same length. -/
def np_cumsum (l : List ℚ) : List ℚ := cumsumFrom 0 l

/-- Python slice l[i : i+w] (drop i, then take w; clamps at the end of the
list exactly like a Python slice does). -/
def pySlice (l : List ℚ) (i w : ℕ) : List ℚ := (l.drop i).take w

/-- Embedding of np.polyfit(x, y, 1)[0]: the ordinary-least-squares slope of
y against x, in exact arithmetic,
(n·Σxy − Σx·Σy) / (n·Σx² − (Σx)²).
np.polyfit solves the least-squares problem; whenever the design matrix has
full rank (the window holds at least two distinct x values) the solution is
unique and its slope coefficient equals this closed form. -/
def polyfitSlope (x y : List ℚ) : ℚ :=
  ((x.length : ℚ) * ((x.zip y).map (fun p => p.1 * p.2)).sum - x.sum * y.sum) /
    ((x.length : ℚ) * (x.map (fun v => v * v)).sum - x.sum * x.sum)

/-- Embedding of np.median: sort, then take the middle element (odd length)
or the mean of the two middle elements (even length). -/
def np_median (l : List ℚ) : ℚ :=
  let s := List.insertionSort (· ≤ ·) l
  if l.length = 0 then 0
  else if l.length % 2 = 1 then s.getD (l.length / 2) 0
  else (s.getD (l.length / 2 - 1) 0 + s.getD (l.length / 2) 0) / 2

/-- CPython datetime: is y a (Gregorian) leap year. -/
def isLeap (y : ℕ) : Bool := y % 4 == 0 && (y % 100 != 0 || y % 400 == 0)

/-- CPython datetime _DAYS_IN_MONTH, indexed by month 1..12 (non-leap;
index 0 is a sentinel, never read on valid dates). -/
def daysInMonthTable : List ℕ := [0, 31, 28, 31, 30, 31, 30, 31, 31, 30, 31, 30, 31]

/-- CPython datetime _DAYS_BEFORE_MONTH, indexed by month 1..12 (non-leap;
index 0 is a sentinel). -/
def daysBeforeMonthTable : List ℕ :=
  [0, 0, 31, 59, 90, 120, 151, 181, 212, 243, 273, 304, 334]

/-- CPython datetime _days_before_year(y): days before January 1 of year y
in the proleptic Gregorian calendar. -/
def daysBeforeYear (y : ℕ) : ℕ :=
  (y - 1) * 365 + (y - 1) / 4 - (y - 1) / 100 + (y - 1) / 400

/-- CPython date(y,1,1).toordinal(). -/
def toordinalJan1 (y : ℕ) : ℕ := daysBeforeYear y + 1

/-- The month-estimation tail of CPython datetime _ord2ymd: given the leap
flag and the 0-based day-of-year n, estimate the month as (n+50)>>5 and
correct it downward by at most one, returning (month, day). -/
def ord2ymdMonth (leap : Bool) (n : ℕ) : ℕ × ℕ :=
  let month := (n + 50) / 32
  let preceding := daysBeforeMonthTable.getD month 0 +
    (if 2 < month ∧ leap then 1 else 0)
  if n < preceding then
    let month1 := month - 1
    let preceding1 := preceding -
      (daysInMonthTable.getD month1 0 + (if month1 = 2 ∧ leap then 1 else 0))
    (month1, n - preceding1 + 1)
  else
    (month, n - preceding + 1)

/-- The within-400-year-cycle part of CPython datetime _ord2ymd: r is the
day offset inside a 400-year cycle; returns (year offset inside the cycle
(1-based), month, day).  CPython computes year = n400*400 + 1 + n100*100 +
n4*4 + n1 (minus 1 in the last-day special case); this definition carries
the 1 + n100*100 + n4*4 + n1 part, and ord2ymd below adds back n400*400. -/
def ymdIn400 (r : ℕ) : ℕ × ℕ × ℕ :=
  let n100 := r / 36524
  let r2 := r % 36524
  let n4 := r2 / 1461
  let r3 := r2 % 1461
  let n1 := r3 / 365
  let n := r3 % 365
  let yoff := 1 + n100 * 100 + n4 * 4 + n1
  if n1 = 4 ∨ n100 = 4 then (yoff - 1, 12, 31)
  else
    let md := ord2ymdMonth (n1 == 3 && (n4 != 24 || n100 == 3)) n
    (yoff, md.1, md.2)

/-- CPython datetime _ord2ymd(N): proleptic Gregorian (year, month, day) of
ordinal N ≥ 1: divide out the 400-year cycles (146097 days each), then
resolve the position inside the cycle. -/
def ord2ymd (N : ℕ) : ℕ × ℕ × ℕ :=
  ((N - 1) / 146097 * 400 + (ymdIn400 ((N - 1) % 146097)).1,
    (ymdIn400 ((N - 1) % 146097)).2)

/-- Specification-side month-length table for a year with the given leap
flag (the plain calendar, used to state what date arithmetic means). -/
def monthLengths (leap : Bool) : List ℕ :=
  [31, if leap then 29 else 28, 31, 30, 31, 30, 31, 31, 30, 31, 30, 31]

/-- Specification-side: walk a month-length table with a 0-based day offset
dd, returning the 1-based (month, day). -/
def monthWalk : List ℕ → ℕ → ℕ → ℕ × ℕ
  | [], m, dd => (m, dd + 1)
  | len :: rest, m, dd => if dd < len then (m, dd + 1) else monthWalk rest (m + 1) (dd - len)

/-- Days in Gregorian year y. -/
def daysInYear (y : ℕ) : ℕ := if isLeap y then 366 else 365

/-- Specification-side reading of date(year,1,1) + timedelta(days=d) for
0 ≤ d ≤ 365: January 1 of the year plus d days, by walking the calendar
(rolling into January 1 of the next year when d = 365 in a non-leap year). -/
def jan1PlusDays (y d : ℕ) : ℕ × ℕ × ℕ :=
  if d < daysInYear y then (y, monthWalk (monthLengths (isLeap y)) 1 d)
  else (y + 1, 1, 1)

/-- strftime zero padding to width 2 (as in %m, %d). -/
def pad2 (n : ℕ) : String := if n < 10 then "0" ++ toString n else toString n

/-- strftime zero padding to width 4 (as in %Y for years up to 9999). -/
def pad4 (n : ℕ) : String :=
  if n < 10 then "000" ++ toString n
  else if n < 100 then "00" ++ toString n
  else if n < 1000 then "0" ++ toString n
  else toString n

/-- strftime of a (year, month, day) triple with the format string of
IPGP_detection.py line 71 (percent Y slash percent m slash percent d). -/
def formatYMD (t : ℕ × ℕ × ℕ) : String :=
  pad4 t.1 ++ "/" ++ pad2 t.2.1 ++ "/" ++ pad2 t.2.2

/-- CPython (date(year,1,1) + timedelta(days=k)).strftime(percent Y/...):
date addition goes through toordinal / fromordinal. -/
def dateStrOfIndex (year k : ℕ) : String := formatYMD (ord2ymd (toordinalJan1 year + k))

/-- The locals bound by a run of annual_ipgp, plus the outcome of the run.
`d` is the numpy index array np.where(slopes>=median_slope)[0].
`dateLine` is the result of evaluating line 71: it raises a TypeError
whenever `d` cannot be converted to a scalar (a multi-element index array).
`outcome` is the result of the whole call: the function body has no return
statement, so a run that reached the end would return None (`Except.ok
none`); a TypeError at line 71 aborts the call. The plotting block after
line 75 is excluded as a rendering concern (and is unreachable whenever
dateLine raises). -/
structure IpgpRun where
  data_cumul : List ℚ
  slopes : List ℚ
  median_slope : ℚ
  d : List ℕ
  dateLine : Except String String
  outcome : Except String (Option ℕ)

/-- The slope list of annual_ipgp (lines 50-59): for each day-of-year index
i in range(366), the degree-1 polyfit slope of data_cumul[i:i+slope_window]
against time[i:i+slope_window]. -/
def slopesOf (time data : List ℚ) (slope_window : ℕ) : List ℚ :=
  (List.range 366).map (fun i =>
    polyfitSlope (pySlice time i slope_window) (pySlice (np_cumsum data) i slope_window))

/-- The detection step (lines 66-67): d = np.where(slopes >= median_slope)[0],
the increasing list of all qualifying day indices. -/
def dOf (time data : List ℚ) (slope_window : ℕ) : List ℕ :=
  (List.range 366).filter (fun i =>
    np_median (slopesOf time data slope_window) ≤ (slopesOf time data slope_window).getD i 0)

/-- Embedding of annual_ipgp(time, data, year, slope_window) from
src/IPGP_detection.py, lines 47-72. -/
def annual_ipgp (time data : List ℚ) (year : ℕ) (slope_window : ℕ) : IpgpRun :=
  let data_cumul := np_cumsum data
  let slopes := slopesOf time data slope_window
  let median_slope := np_median slopes
  let d := dOf time data slope_window
  let dateLine : Except String String :=
    if d.length = 1 then
      Except.ok (dateStrOfIndex year (d.headD 0))
    else
      Except.error ("TypeError: unsupported type for timedelta days component")
  { data_cumul := data_cumul
    slopes := slopes
    median_slope := median_slope
    d := d
    dateLine := dateLine
    outcome := dateLine.map (fun _ => none) }

theorem run_slopes (time data : List ℚ) (y w : ℕ) :
    (annual_ipgp time data y w).slopes = slopesOf time data w := rfl

theorem run_median (time data : List ℚ) (y w : ℕ) :
    (annual_ipgp time data y w).median_slope = np_median (slopesOf time data w) := rfl

theorem run_d (time data : List ℚ) (y w : ℕ) :
    (annual_ipgp time data y w).d = dOf time data w := rfl

theorem run_dateLine (time data : List ℚ) (y w : ℕ) :
    (annual_ipgp time data y w).dateLine
      = if (dOf time data w).length = 1 then
          Except.ok (dateStrOfIndex y ((dOf time data w).headD 0))
        else
          Except.error ("TypeError: unsupported type for timedelta days component") := rfl

theorem run_outcome (time data : List ℚ) (y w : ℕ) :
    (annual_ipgp time data y w).outcome
      = ((annual_ipgp time data y w).dateLine).map (fun _ => none) := rfl

/-!  ### Counting lemmas about the median threshold  -/

theorem length_filter_range_getD (l : List ℚ) (p : ℚ → Bool) :
    ((List.range l.length).filter (fun i => p (l.getD i 0))).length = l.countP p := by
  induction l using List.reverseRecOn with
  | nil => rfl
  | append_singleton l a ih =>
    rw [List.length_append, List.length_singleton, List.range_succ, List.filter_append,
      List.length_append, List.countP_append]
    have h1 : (List.range l.length).filter (fun i => p ((l ++ [a]).getD i 0)) =
        (List.range l.length).filter (fun i => p (l.getD i 0)) := by
      apply List.filter_congr
      intro i hi
      rw [List.mem_range] at hi
      rw [List.getD_append _ _ _ _ hi]
    have h2 : (l ++ [a]).getD l.length 0 = a := by
      rw [List.getD_eq_getElem?_getD, List.getElem?_concat_length]; rfl
    have h3 : List.filter (fun i => p ((l ++ [a]).getD i 0)) [l.length] =
        if p a then [l.length] else [] := by
      rw [List.filter_singleton, h2]
      cases p a <;> rfl
    rw [h1, ih, h3, List.countP_singleton]
    cases p a <;> simp

theorem upper_half_ge_median {l : List ℚ} (hne : l.length ≠ 0) (heven : l.length % 2 = 0) :
    l.length / 2 ≤ l.countP (fun x => decide (np_median l ≤ x)) := by
  set s := List.insertionSort (· ≤ ·) l with hs
  have hperm : List.Perm s l := List.perm_insertionSort _ l
  have hsorted : s.Sorted (· ≤ ·) := List.sorted_insertionSort _ l
  have hslen : s.length = l.length := hperm.length_eq
  set k := l.length / 2 with hk
  have hklt : k < s.length := by rw [hslen]; omega
  have hk1lt : k - 1 < s.length := by omega
  have hmed : np_median l = (s.getD (k - 1) 0 + s.getD k 0) / 2 := by
    rw [np_median]
    simp only [← hs, ← hk]
    rw [if_neg hne, if_neg (by omega)]
  have hmono : s.getD (k - 1) 0 ≤ s.getD k 0 := by
    rw [List.getD_eq_getElem _ _ hk1lt, List.getD_eq_getElem _ _ hklt]
    exact hsorted.rel_get_of_le
      (Fin.mk_le_mk.mpr (by omega) : (⟨k - 1, hk1lt⟩ : Fin s.length) ≤ ⟨k, hklt⟩)
  have hmedle : np_median l ≤ s.getD k 0 := by rw [hmed]; linarith
  have hdrop : ∀ x ∈ s.drop k, np_median l ≤ x := by
    have hcons : s.drop k = s[k] :: s.drop (k + 1) := List.drop_eq_getElem_cons hklt
    intro x hx
    rw [hcons, List.mem_cons] at hx
    rw [List.getD_eq_getElem _ _ hklt] at hmedle
    rcases hx with rfl | hx
    · exact hmedle
    · have hsd : (s.drop k).Sorted (· ≤ ·) := hsorted.sublist (List.drop_sublist _ _)
      rw [hcons] at hsd
      have := List.rel_of_sorted_cons hsd x hx
      linarith
  have hcount : l.countP (fun x => decide (np_median l ≤ x)) =
      s.countP (fun x => decide (np_median l ≤ x)) := (hperm.countP_eq _).symm
  have hsplit : s.countP (fun x => decide (np_median l ≤ x)) =
      (s.take k).countP (fun x => decide (np_median l ≤ x)) +
      (s.drop k).countP (fun x => decide (np_median l ≤ x)) := by
    conv_lhs => rw [← List.take_append_drop k s]
    rw [List.countP_append]
  have hfull : (s.drop k).countP (fun x => decide (np_median l ≤ x)) = (s.drop k).length := by
    rw [List.countP_eq_length]
    intro x hx
    exact decide_eq_true (hdrop x hx)
  have hdl : (s.drop k).length = s.length - k := List.length_drop _ _
  omega

/-!  ### Least-squares lemmas  -/

/-- The denominator of the least-squares slope: n·Σx² − (Σx)². -/
def lsqDenom (x : List ℚ) : ℚ :=
  (x.length : ℚ) * (x.map (fun v => v * v)).sum - x.sum * x.sum

theorem sum_map_linear (x : List ℚ) (m b : ℚ) :
    (x.map (fun v => m * v + b)).sum = m * x.sum + x.length * b := by
  induction x with
  | nil => simp
  | cons a t ih =>
    simp only [List.map_cons, List.sum_cons, ih, List.length_cons]
    push_cast
    ring

theorem sum_zip_map_linear (x : List ℚ) (m b : ℚ) :
    ((x.zip (x.map (fun v => m * v + b))).map (fun p => p.1 * p.2)).sum
      = m * (x.map (fun v => v * v)).sum + b * x.sum := by
  induction x with
  | nil => simp
  | cons a t ih =>
    simp only [List.map_cons, List.zip_cons_cons, List.sum_cons, ih]
    ring

/-- If the y window is an exact affine image of the x window and the
least-squares denominator does not vanish, the fitted slope is the affine
slope m. -/
theorem polyfitSlope_of_linear (x : List ℚ) (m b : ℚ) (hD : lsqDenom x ≠ 0) :
    polyfitSlope x (x.map (fun v => m * v + b)) = m := by
  rw [polyfitSlope, sum_map_linear, sum_zip_map_linear]
  rw [div_eq_iff (by rw [lsqDenom] at hD; exact hD)]
  ring

theorem sum_range_cast (w : ℕ) :
    ((List.range w).map (fun j : ℕ => (j : ℚ))).sum * 2 = (w : ℚ) * w - w := by
  induction w with
  | zero => simp
  | succ n ih =>
    rw [List.range_succ, List.map_append, List.sum_append]
    push_cast
    simp only [List.map_cons, List.map_nil, List.sum_cons, List.sum_nil]
    linarith [ih]

theorem sum_range_sq_cast (w : ℕ) :
    ((List.range w).map (fun j : ℕ => (j : ℚ) * j)).sum * 6
      = 2 * (w : ℚ) ^ 3 - 3 * (w : ℚ) ^ 2 + w := by
  induction w with
  | zero => simp
  | succ n ih =>
    rw [List.range_succ, List.map_append, List.sum_append]
    push_cast
    simp only [List.map_cons, List.map_nil, List.sum_cons, List.sum_nil]
    nlinarith [ih]

theorem sum_map_quad (L : List ℚ) (c e : ℚ) :
    (L.map (fun v => v * v + c * v + e)).sum
      = (L.map (fun v => v * v)).sum + c * L.sum + L.length * e := by
  induction L with
  | nil => simp
  | cons a t ih =>
    simp only [List.map_cons, List.sum_cons, ih, List.length_cons]
    push_cast
    ring

theorem lsqDenom_arith (A : ℚ) (w : ℕ) :
    lsqDenom ((List.range w).map (fun j : ℕ => A + (j : ℚ))) * 12
      = (w : ℚ) ^ 2 * ((w : ℚ) ^ 2 - 1) := by
  have hmm : (List.range w).map (fun j : ℕ => A + (j : ℚ))
      = ((List.range w).map (fun j : ℕ => (j : ℚ))).map (fun v => 1 * v + A) := by
    rw [List.map_map]
    apply List.map_congr_left
    intro j _
    simp only [Function.comp_apply]
    ring
  rw [lsqDenom, hmm, List.length_map, List.length_map, List.length_range, sum_map_linear,
    List.map_map]
  have hq : ((fun v : ℚ => v * v) ∘ (fun v : ℚ => 1 * v + A))
      = fun v : ℚ => v * v + (2 * A) * v + (A * A) := by
    funext v
    simp only [Function.comp_apply]
    ring
  rw [hq, sum_map_quad, List.length_map, List.length_range]
  have hcomp : ((List.range w).map (fun j : ℕ => (j : ℚ))).map (fun v => v * v)
      = (List.range w).map (fun j : ℕ => (j : ℚ) * j) := by
    rw [List.map_map]
    rfl
  rw [hcomp]
  have h6 := sum_range_sq_cast w
  have h2 := sum_range_cast w
  linear_combination (2 * (w : ℚ)) * h6
    - 3 * (2 * ((List.range w).map (fun j : ℕ => (j : ℚ))).sum + (w : ℚ) ^ 2 - (w : ℚ)) * h2

theorem lsqDenom_arith_ne_zero (A : ℚ) (w : ℕ) (hw : 2 ≤ w) :
    lsqDenom ((List.range w).map (fun j : ℕ => A + (j : ℚ))) ≠ 0 := by
  have h := lsqDenom_arith A w
  have hw2 : (2 : ℚ) ≤ (w : ℚ) := by exact_mod_cast hw
  intro h0
  rw [h0] at h
  have h4 : (4 : ℚ) ≤ (w : ℚ) ^ 2 := by nlinarith [hw2]
  nlinarith [h, h4]

/-!  ### The constant-signal scenario  -/

theorem pySlice_map_range (N w i : ℕ) (f : ℕ → ℚ) (h : i + w ≤ N) :
    pySlice ((List.range N).map f) i w = (List.range w).map (fun j => f (i + j)) := by
  apply List.ext_getElem
  · simp only [pySlice, List.length_take, List.length_drop, List.length_map, List.length_range]
    omega
  · intro j h1 h2
    simp only [pySlice, List.length_map, List.length_range] at h1 ⊢
    rw [List.getElem_take, List.getElem_drop, List.getElem_map, List.getElem_range,
      List.getElem_map, List.getElem_range]

theorem cumsumFrom_replicate (c : ℚ) (N : ℕ) :
    ∀ acc, cumsumFrom acc (List.replicate N c)
      = (List.range N).map (fun j : ℕ => acc + c * (j + 1)) := by
  induction N with
  | zero => intro acc; rfl
  | succ n ih =>
    intro acc
    rw [List.replicate_succ]
    show (acc + c) :: cumsumFrom (acc + c) (List.replicate n c) = _
    rw [ih (acc + c), List.range_succ_eq_map, List.map_cons, List.map_map]
    congr 1
    · push_cast
      ring
    · apply List.map_congr_left
      intro j _
      simp only [Function.comp_apply, Nat.succ_eq_add_one]
      push_cast
      ring

theorem np_cumsum_replicate (c : ℚ) (N : ℕ) :
    np_cumsum (List.replicate N c) = (List.range N).map (fun j : ℕ => c * (j + 1)) := by
  rw [np_cumsum, cumsumFrom_replicate]
  apply List.map_congr_left
  intro j _
  ring

theorem np_median_replicate (n : ℕ) (c : ℚ) (hn : n ≠ 0) :
    np_median (List.replicate n c) = c := by
  have hs : List.insertionSort (· ≤ ·) (List.replicate n c) = List.replicate n c := by
    apply List.eq_replicate_iff.mpr
    constructor
    · rw [List.length_insertionSort, List.length_replicate]
    · intro b hb
      exact List.eq_of_mem_replicate
        ((List.perm_insertionSort (· ≤ ·) (List.replicate n c)).mem_iff.mp hb)
  rw [np_median]
  simp only [hs, List.length_replicate]
  rw [if_neg hn]
  by_cases hpar : n % 2 = 1
  · rw [if_pos hpar, List.getD_eq_getElem _ _ (by simp; omega), List.getElem_replicate]
  · rw [if_neg hpar, List.getD_eq_getElem _ _ (by simp; omega),
      List.getD_eq_getElem _ _ (by simp; omega), List.getElem_replicate, List.getElem_replicate]
    ring

theorem const_scenario_slopes (t0 c : ℚ) (w N : ℕ) (hw : 2 ≤ w) (hN : 366 + w ≤ N) :
    (List.range 366).map (fun i =>
        polyfitSlope (pySlice ((List.range N).map (fun j : ℕ => t0 + (j : ℚ))) i w)
          (pySlice (np_cumsum (List.replicate N c)) i w))
      = List.replicate 366 c := by
  have h366 : List.replicate 366 c = (List.range 366).map (fun _ => c) := by
    rw [List.map_const', List.length_range]
  rw [h366]
  apply List.map_congr_left
  intro i hi
  rw [List.mem_range] at hi
  rw [np_cumsum_replicate, pySlice_map_range _ _ _ _ (by omega),
    pySlice_map_range _ _ _ _ (by omega)]
  have hx : (List.range w).map (fun j => t0 + ((i + j : ℕ) : ℚ))
      = (List.range w).map (fun j : ℕ => (t0 + (i : ℚ)) + (j : ℚ)) := by
    apply List.map_congr_left
    intro j _
    push_cast
    ring
  have hy : (List.range w).map (fun j => c * (((i + j : ℕ) : ℚ) + 1))
      = ((List.range w).map (fun j : ℕ => (t0 + (i : ℚ)) + (j : ℚ))).map
          (fun v => c * v + c * (1 - t0)) := by
    rw [List.map_map]
    apply List.map_congr_left
    intro j _
    simp only [Function.comp_apply]
    push_cast
    ring
  rw [hx, hy]
  exact polyfitSlope_of_linear _ c _ (lsqDenom_arith_ne_zero (t0 + (i : ℚ)) w hw)

/-!  ### Calendar arithmetic: CPython ordinals against the plain calendar  -/

theorem chain_arith (z d v : ℕ) (hz1 : 1 ≤ z) (hz4 : z ≤ 400) (hd : d ≤ 364)
    (hv : v = daysBeforeYear z + d) :
    v % 36524 % 1461 % 365 = d ∧
    1 + v / 36524 * 100 + v % 36524 / 1461 * 4 + v % 36524 % 1461 / 365 = z ∧
    v % 36524 % 1461 / 365 ≠ 4 ∧ v / 36524 ≠ 4 ∧
    ((v % 36524 % 1461 / 365 = 3 ∧ (v % 36524 / 1461 = 24 → v / 36524 = 3)) ↔
      (z % 4 = 0 ∧ (z % 100 = 0 → z % 400 = 0))) := by
  obtain ⟨b, c, hbc, hb, hc⟩ : ∃ b c, z - 1 = 100 * b + c ∧ b ≤ 3 ∧ c ≤ 99 :=
    ⟨(z - 1) / 100, (z - 1) % 100, by omega, by omega, by omega⟩
  obtain ⟨e, f, hef, he, hf⟩ : ∃ e f, c = 4 * e + f ∧ e ≤ 24 ∧ f ≤ 3 :=
    ⟨c / 4, c % 4, by omega, by omega, by omega⟩
  have hv' : v = 36524 * b + 1461 * e + 365 * f + d := by
    subst hv
    unfold daysBeforeYear
    omega
  have h100 : v / 36524 = b ∧ v % 36524 = 1461 * e + 365 * f + d := by omega
  have h4 : v % 36524 / 1461 = e ∧ v % 36524 % 1461 = 365 * f + d := by omega
  have h1 : v % 36524 % 1461 / 365 = f ∧ v % 36524 % 1461 % 365 = d := by omega
  omega

theorem chain_arith_last (z v : ℕ) (hz1 : 1 ≤ z) (hz4 : z ≤ 400)
    (hleap : z % 4 = 0 ∧ (z % 100 = 0 → z % 400 = 0))
    (hv : v = daysBeforeYear z + 365) :
    (v % 36524 % 1461 / 365 = 4 ∨ v / 36524 = 4) ∧
    1 + v / 36524 * 100 + v % 36524 / 1461 * 4 + v % 36524 % 1461 / 365 - 1 = z := by
  obtain ⟨b, c, hbc, hb, hc⟩ : ∃ b c, z - 1 = 100 * b + c ∧ b ≤ 3 ∧ c ≤ 99 :=
    ⟨(z - 1) / 100, (z - 1) % 100, by omega, by omega, by omega⟩
  obtain ⟨e, f, hef, he, hf⟩ : ∃ e f, c = 4 * e + f ∧ e ≤ 24 ∧ f ≤ 3 :=
    ⟨c / 4, c % 4, by omega, by omega, by omega⟩
  have hf3 : f = 3 := by omega
  have hv' : v = 36524 * b + 1461 * e + 365 * 3 + 365 := by
    subst hv
    unfold daysBeforeYear
    omega
  by_cases hz400 : z = 400
  · have hb3 : b = 3 ∧ e = 24 := by omega
    have h100 : v / 36524 = 4 ∧ v % 36524 = 0 := by omega
    omega
  · have he23 : e ≤ 23 := by omega
    have h100 : v / 36524 = b ∧ v % 36524 = 1461 * e + 1460 := by omega
    have h4 : v % 36524 / 1461 = e ∧ v % 36524 % 1461 = 1460 := by omega
    have h1 : v % 36524 % 1461 / 365 = 4 := by omega
    omega

set_option maxRecDepth 2000 in
theorem ord2ymdMonth_eq_monthWalk :
    ∀ n < 366, ∀ b : Bool, (n < 365 ∨ b = true) →
      ord2ymdMonth b n = monthWalk (monthLengths b) 1 n := by
  decide

theorem ymdIn400_daysBeforeYear (z d : ℕ) (hz1 : 1 ≤ z) (hz4 : z ≤ 400)
    (hd : d < daysInYear z) :
    ymdIn400 (daysBeforeYear z + d) = (z, monthWalk (monthLengths (isLeap z)) 1 d) := by
  have hd366 : d < 366 := by
    rw [daysInYear] at hd
    by_cases hl : isLeap z <;> simp [hl] at hd <;> omega
  by_cases h365 : d = 365
  · have hleap : isLeap z = true := by
      rw [daysInYear] at hd
      by_cases hl : isLeap z
      · exact hl
      · rw [if_neg (by simp [hl])] at hd
        omega
    have hlp : z % 4 = 0 ∧ (z % 100 = 0 → z % 400 = 0) := by
      rw [isLeap] at hleap
      simp only [Bool.and_eq_true, Bool.or_eq_true, beq_iff_eq, bne_iff_ne] at hleap
      omega
    subst h365
    obtain ⟨hbr, hyoff⟩ := chain_arith_last z (daysBeforeYear z + 365) hz1 hz4 hlp rfl
    rw [ymdIn400]
    simp only []
    rw [if_pos hbr, hyoff, hleap]
    have hw : monthWalk (monthLengths true) 1 365 = (12, 31) := by decide
    rw [hw]
  · have hd364 : d ≤ 364 := by omega
    obtain ⟨hn, hyoff, hn1, hn100, hiff⟩ :=
      chain_arith z d (daysBeforeYear z + d) hz1 hz4 hd364 rfl
    rw [ymdIn400]
    simp only []
    rw [if_neg (not_or.mpr ⟨hn1, hn100⟩)]
    have hflag : ((daysBeforeYear z + d) % 36524 % 1461 / 365 == 3 &&
        ((daysBeforeYear z + d) % 36524 / 1461 != 24 || (daysBeforeYear z + d) / 36524 == 3))
        = isLeap z := by
      rw [Bool.eq_iff_iff, isLeap]
      simp only [Bool.and_eq_true, Bool.or_eq_true, beq_iff_eq, bne_iff_ne]
      omega
    rw [hflag, hn, ord2ymdMonth_eq_monthWalk d hd366 (isLeap z) (Or.inl (by omega)), hyoff]

theorem ymdIn400_jan1PlusDays (z d : ℕ) (hz1 : 1 ≤ z) (hz4 : z ≤ 400) (hd : d ≤ 365) :
    ymdIn400 (daysBeforeYear z + d) = jan1PlusDays z d := by
  by_cases hin : d < daysInYear z
  · rw [jan1PlusDays, if_pos hin, ymdIn400_daysBeforeYear z d hz1 hz4 hin]
  · have hnl : isLeap z = false := by
      by_cases hl : isLeap z
      · rw [daysInYear, if_pos (by simp [hl])] at hin
        omega
      · simp only [Bool.not_eq_true] at hl
        exact hl
    have hd365 : d = 365 := by
      rw [daysInYear, hnl] at hin
      simp only [Bool.false_eq_true, if_false] at hin
      omega
    have hnlp : ¬(z % 4 = 0 ∧ (z % 100 = 0 → z % 400 = 0)) := by
      intro hcon
      have ht : isLeap z = true := by
        rw [isLeap]
        simp only [Bool.and_eq_true, Bool.or_eq_true, beq_iff_eq, bne_iff_ne]
        omega
      rw [ht] at hnl
      cases hnl
    have hz399 : z ≤ 399 := by omega
    have hnext : daysBeforeYear z + 365 = daysBeforeYear (z + 1) + 0 := by
      unfold daysBeforeYear
      omega
    subst hd365
    rw [jan1PlusDays, if_neg hin, hnext,
      ymdIn400_daysBeforeYear (z + 1) 0 (by omega) (by omega)
        (by rw [daysInYear]; by_cases h : isLeap (z + 1) <;> simp [h])]
    have hw0 : ∀ b : Bool, monthWalk (monthLengths b) 1 0 = (1, 1) := by decide
    rw [hw0]

theorem jan1PlusDays_shift (a z d : ℕ) :
    jan1PlusDays (a * 400 + z) d
      = (a * 400 + (jan1PlusDays z d).1, (jan1PlusDays z d).2) := by
  have h4 : (a * 400 + z) % 4 = z % 4 := by omega
  have h100 : (a * 400 + z) % 100 = z % 100 := by omega
  have h400 : (a * 400 + z) % 400 = z % 400 := by omega
  have hleap : isLeap (a * 400 + z) = isLeap z := by
    rw [isLeap, isLeap, h4, h100, h400]
  rw [jan1PlusDays, jan1PlusDays, daysInYear, daysInYear, hleap]
  by_cases hlt : d < if isLeap z = true then 366 else 365
  · rw [if_pos hlt, if_pos hlt]
  · rw [if_neg hlt, if_neg hlt, Nat.add_assoc]

/-- CPython date addition agrees with the plain calendar: for every year
y ≥ 1 and day offset 0 ≤ d ≤ 365, fromordinal(toordinal(date(y,1,1)) + d)
is January 1 of y plus d days. -/
theorem ord2ymd_toordinalJan1 (y d : ℕ) (hy : 1 ≤ y) (hd : d ≤ 365) :
    ord2ymd (toordinalJan1 y + d) = jan1PlusDays y d := by
  obtain ⟨a, r, hr, rfl⟩ : ∃ a r, r < 400 ∧ y = a * 400 + (r + 1) :=
    ⟨(y - 1) / 400, (y - 1) % 400, by omega, by omega⟩
  have hsplit : daysBeforeYear (a * 400 + (r + 1)) = 146097 * a + daysBeforeYear (r + 1) := by
    unfold daysBeforeYear
    omega
  have hbound : daysBeforeYear (r + 1) + d < 146097 := by
    unfold daysBeforeYear
    omega
  rw [ord2ymd, toordinalJan1]
  have hN : daysBeforeYear (a * 400 + (r + 1)) + 1 + d - 1
      = 146097 * a + (daysBeforeYear (r + 1) + d) := by omega
  rw [hN]
  have hdiv : (146097 * a + (daysBeforeYear (r + 1) + d)) / 146097 = a := by omega
  have hmod : (146097 * a + (daysBeforeYear (r + 1) + d)) % 146097
      = daysBeforeYear (r + 1) + d := by omega
  rw [hdiv, hmod, ymdIn400_jan1PlusDays (r + 1) d (by omega) (by omega) hd,
    jan1PlusDays_shift a (r + 1) d]

/-!  ### Run-level lemmas  -/

theorem cumsumFrom_length (l : List ℚ) : ∀ acc, (cumsumFrom acc l).length = l.length := by
  induction l with
  | nil => intro acc; rfl
  | cons a t ih =>
    intro acc
    show (cumsumFrom (acc + a) t).length + 1 = t.length + 1
    rw [ih]

theorem np_cumsum_length (l : List ℚ) : (np_cumsum l).length = l.length :=
  cumsumFrom_length l 0

theorem slopesOf_length (time data : List ℚ) (w : ℕ) : (slopesOf time data w).length = 366 := by
  rw [slopesOf, List.length_map, List.length_range]

theorem dOf_count (time data : List ℚ) (w : ℕ) : 183 ≤ (dOf time data w).length := by
  have h1 := length_filter_range_getD (slopesOf time data w)
    (fun x => decide (np_median (slopesOf time data w) ≤ x))
  rw [slopesOf_length] at h1
  have hne : (slopesOf time data w).length ≠ 0 := by rw [slopesOf_length]; omega
  have heven : (slopesOf time data w).length % 2 = 0 := by rw [slopesOf_length]
  have h2 := upper_half_ge_median hne heven
  rw [slopesOf_length] at h2
  have h2' : 183 ≤ (slopesOf time data w).countP
      (fun x => decide (np_median (slopesOf time data w) ≤ x)) := by omega
  rw [dOf]
  exact le_trans h2' (le_of_eq h1.symm)

theorem dOf_mem_le (time data : List ℚ) (w : ℕ) : ∀ i ∈ dOf time data w, i ≤ 365 := by
  intro i hi
  rw [dOf] at hi
  have hmem := List.mem_of_mem_filter hi
  rw [List.mem_range] at hmem
  omega

theorem run_dateLine_error (time data : List ℚ) (y w : ℕ) :
    (annual_ipgp time data y w).dateLine
      = Except.error ("TypeError: unsupported type for timedelta days component") := by
  rw [run_dateLine, if_neg (by have := dOf_count time data w; omega)]

theorem run_outcome_error (time data : List ℚ) (y w : ℕ) :
    (annual_ipgp time data y w).outcome
      = Except.error ("TypeError: unsupported type for timedelta days component") := by
  rw [run_outcome, run_dateLine_error]
  rfl

theorem const_run_d (t0 c : ℚ) (w N : ℕ) (hw : 2 ≤ w) (hN : 366 + w ≤ N) :
    slopesOf ((List.range N).map (fun j : ℕ => t0 + (j : ℚ))) (List.replicate N c) w
        = List.replicate 366 c ∧
    np_median (slopesOf ((List.range N).map (fun j : ℕ => t0 + (j : ℚ)))
        (List.replicate N c) w) = c ∧
    dOf ((List.range N).map (fun j : ℕ => t0 + (j : ℚ))) (List.replicate N c) w
        = List.range 366 := by
  have hs : slopesOf ((List.range N).map (fun j : ℕ => t0 + (j : ℚ))) (List.replicate N c) w
      = List.replicate 366 c := by
    rw [slopesOf]
    exact const_scenario_slopes t0 c w N hw hN
  refine ⟨hs, ?_, ?_⟩
  · rw [hs, np_median_replicate 366 c (by omega)]
  · rw [dOf]
    apply List.filter_eq_self.mpr
    intro i hi
    rw [List.mem_range] at hi
    rw [hs, np_median_replicate 366 c (by omega),
      List.getD_eq_getElem _ _ (by simp only [List.length_replicate]; omega),
      List.getElem_replicate]
    simp

/-!  ### Ordinary least squares: the fitted slope minimises the residual
sum of squares  -/

/-- Residual sum of squares of the affine model y = a + b·x on the paired
points of x and y. -/
def rss (x y : List ℚ) (a b : ℚ) : ℚ :=
  ((x.zip y).map (fun p => (p.2 - (a + b * p.1)) * (p.2 - (a + b * p.1)))).sum

theorem rss_expand (P : List (ℚ × ℚ)) (a b : ℚ) :
    (P.map (fun p => (p.2 - (a + b * p.1)) * (p.2 - (a + b * p.1)))).sum
      = (P.map (fun p => p.2 * p.2)).sum + (P.length : ℚ) * (a * a)
        + (b * b) * (P.map (fun p => p.1 * p.1)).sum
        - 2 * a * (P.map (fun p => p.2)).sum
        - 2 * b * (P.map (fun p => p.1 * p.2)).sum
        + 2 * (a * b) * (P.map (fun p => p.1)).sum := by
  induction P with
  | nil => simp
  | cons q t ih =>
    simp only [List.map_cons, List.sum_cons, List.length_cons, ih]
    push_cast
    ring

theorem sum_map_sq_sub (a : ℚ) (t : List ℚ) :
    (t.map (fun v => (a - v) * (a - v))).sum
      = (t.length : ℚ) * (a * a) - 2 * a * t.sum + (t.map (fun v => v * v)).sum := by
  induction t with
  | nil => simp
  | cons b u ih =>
    simp only [List.map_cons, List.sum_cons, List.length_cons, ih]
    push_cast
    ring

theorem sum_map_sq_nonneg (t : List ℚ) (f : ℚ → ℚ) :
    0 ≤ (t.map (fun v => f v * f v)).sum := by
  apply List.sum_nonneg
  intro a ha
  rw [List.mem_map] at ha
  obtain ⟨v, _, rfl⟩ := ha
  exact mul_self_nonneg _

theorem lsqDenom_nonneg (x : List ℚ) : 0 ≤ lsqDenom x := by
  induction x with
  | nil => simp [lsqDenom]
  | cons a t ih =>
    rw [lsqDenom] at ih ⊢
    simp only [List.map_cons, List.sum_cons, List.length_cons]
    have hterm : 0 ≤ (t.map (fun v => (a - v) * (a - v))).sum := sum_map_sq_nonneg t _
    have hexp := sum_map_sq_sub a t
    push_cast
    nlinarith [ih, hterm, hexp]

theorem ols_scalar (C n Sx Sy Sxx Sxy a1 b1 a2 b2 : ℚ)
    (hn : 0 < n) (hD : 0 ≤ n * Sxx - Sx * Sx)
    (ha : n * a1 = Sy - b1 * Sx)
    (hb : (n * Sxx - Sx * Sx) * b1 = n * Sxy - Sx * Sy) :
    C + n * (a1 * a1) + (b1 * b1) * Sxx - 2 * a1 * Sy - 2 * b1 * Sxy + 2 * (a1 * b1) * Sx
      ≤ C + n * (a2 * a2) + (b2 * b2) * Sxx - 2 * a2 * Sy - 2 * b2 * Sxy
          + 2 * (a2 * b2) * Sx := by
  have key : n * ((C + n * (a2 * a2) + (b2 * b2) * Sxx - 2 * a2 * Sy - 2 * b2 * Sxy
        + 2 * (a2 * b2) * Sx)
      - (C + n * (a1 * a1) + (b1 * b1) * Sxx - 2 * a1 * Sy - 2 * b1 * Sxy
        + 2 * (a1 * b1) * Sx))
      = (n * (a2 - a1) + Sx * (b2 - b1)) ^ 2 + (n * Sxx - Sx * Sx) * (b2 - b1) ^ 2 := by
    linear_combination (2 * n * (a2 - a1) + 2 * Sx * (b2 - b1)) * ha + 2 * (b2 - b1) * hb
  nlinarith [key, sq_nonneg (n * (a2 - a1) + Sx * (b2 - b1)),
    mul_nonneg hD (sq_nonneg (b2 - b1)), hn]

/-- Under a non-degenerate window (nonzero least-squares denominator) and
length-matched x and y, the closed-form polyfit slope, together with the
matching intercept, minimises the residual sum of squares: it is the
ordinary-least-squares degree-1 fit. -/
theorem polyfitSlope_isOLS (x y : List ℚ) (hlen : y.length = x.length)
    (hD : lsqDenom x ≠ 0) :
    ∃ a, ∀ a2 b2, rss x y a (polyfitSlope x y) ≤ rss x y a2 b2 := by
  have hDpos : 0 < lsqDenom x := lt_of_le_of_ne (lsqDenom_nonneg x) (Ne.symm hD)
  have hxne : x ≠ [] := by
    rintro rfl
    rw [lsqDenom] at hD
    simp at hD
  have hn : 0 < ((x.length : ℕ) : ℚ) := by
    have := List.length_pos.mpr hxne
    exact_mod_cast this
  refine ⟨(y.sum - polyfitSlope x y * x.sum) / (x.length : ℚ), ?_⟩
  intro a2 b2
  have hxy : x.length ≤ y.length := le_of_eq hlen.symm
  have hPfst : ((x.zip y).map (fun p => p.1)).sum = x.sum := by
    have h := List.map_fst_zip x y hxy
    exact congrArg List.sum h
  have hPsnd : ((x.zip y).map (fun p => p.2)).sum = y.sum := by
    have h := List.map_snd_zip x y (le_of_eq hlen)
    exact congrArg List.sum h
  have hPxx : ((x.zip y).map (fun p => p.1 * p.1)).sum = (x.map (fun v => v * v)).sum := by
    have h1 : ((x.zip y).map (fun p => p.1 * p.1))
        = ((x.zip y).map (fun p => p.1)).map (fun v => v * v) := by
      rw [List.map_map]
      rfl
    have h2 : ((x.zip y).map (fun p => p.1)).map (fun v => v * v)
        = x.map (fun v => v * v) := by
      have h := List.map_fst_zip x y hxy
      exact congrArg (List.map (fun v => v * v)) h
    rw [h1, h2]
  have hPlen : ((x.zip y).length : ℚ) = (x.length : ℚ) := by
    rw [List.length_zip, hlen, Nat.min_self]
  rw [rss, rss, rss_expand, rss_expand, hPfst, hPsnd, hPxx, hPlen]
  have hD2 : (x.length : ℚ) * (x.map (fun v => v * v)).sum - x.sum * x.sum ≠ 0 := by
    rw [lsqDenom] at hD
    exact hD
  have hb : lsqDenom x * polyfitSlope x y
      = (x.length : ℚ) * ((x.zip y).map (fun p => p.1 * p.2)).sum - x.sum * y.sum := by
    rw [polyfitSlope, lsqDenom]
    exact mul_div_cancel₀ _ hD2
  have ha : (x.length : ℚ) * ((y.sum - polyfitSlope x y * x.sum) / (x.length : ℚ))
      = y.sum - polyfitSlope x y * x.sum := by
    field_simp
  apply ols_scalar _ _ _ _ _ _ _ _ _ _ hn (by rw [lsqDenom] at hDpos; linarith) ha
  rw [lsqDenom] at hb
  exact hb

theorem slopesOf_getD (time data : List ℚ) (w i : ℕ) (hi : i < 366) :
    (slopesOf time data w).getD i 0
      = polyfitSlope (pySlice time i w) (pySlice (np_cumsum data) i w) := by
  rw [slopesOf, List.getD_eq_getElem _ _
    (by simp only [List.length_map, List.length_range]; omega)]
  rw [List.getElem_map, List.getElem_range]

/-!  ### The claims  -/

/-- Claim C1 (code bug): the specification says the detector returns the
smallest index d with slope[d] >= median_slope as detected_index.  On a
valid input (daily time axis 0..367, constant data), the code instead binds
d to the entire qualifying index array np.where(slopes>=median)[0] — here
all of 0..365, whose smallest element 0 is what the spec asks for — then
raises a TypeError in the timedelta conversion and, having no return
statement, returns no index at all. -/
theorem claim1_code_binds_index_array :
    (annual_ipgp ((List.range 368).map (fun j : ℕ => (j : ℚ)))
        (List.replicate 368 1) 2012 2).d = List.range 366 ∧
    (annual_ipgp ((List.range 368).map (fun j : ℕ => (j : ℚ)))
        (List.replicate 368 1) 2012 2).outcome
      = Except.error ("TypeError: unsupported type for timedelta days component") := by
  have htime : (List.range 368).map (fun j : ℕ => (j : ℚ))
      = (List.range 368).map (fun j : ℕ => 0 + (j : ℚ)) := by
    apply List.map_congr_left
    intro j _
    rw [zero_add]
  constructor
  · rw [run_d, htime, (const_run_d 0 1 2 368 (by norm_num) (by norm_num)).2.2]
  · exact run_outcome_error _ _ _ _

/-- Claim C2 (code bug): the specification says annual_ipgp returns
detected_index to the caller.  The function body has no return statement,
and on every valid input (here a daily axis of 369 samples with constant
data) the run aborts with a TypeError before reaching the end, so no value
is returned. -/
theorem claim2_no_return_value :
    (annual_ipgp ((List.range 369).map (fun j : ℕ => (j : ℚ)))
        (List.replicate 369 2) 2012 3).outcome
      = Except.error ("TypeError: unsupported type for timedelta days component") :=
  run_outcome_error _ _ _ _

/-- Claim C3: for every valid input, the detection step binds d to the
whole array of qualifying indices, which always holds at least 183 of the
366 indices (never a single scalar), the date conversion
date(year,1,1)+timedelta(days=d) raises a TypeError on that multi-element
array, and the formatted date line is never produced. -/
theorem claim3_typeerror_no_date_line (time data : List ℚ) (year w : ℕ)
    (htime : 366 + w ≤ time.length) (hdata : 366 + w ≤ data.length) (hw : 2 ≤ w) :
    183 ≤ (annual_ipgp time data year w).d.length ∧
    (annual_ipgp time data year w).dateLine
      = Except.error ("TypeError: unsupported type for timedelta days component") ∧
    ∀ s : String, (annual_ipgp time data year w).dateLine ≠ Except.ok s := by
  refine ⟨?_, run_dateLine_error time data year w, ?_⟩
  · rw [run_d]
    exact dOf_count time data w
  · intro s
    rw [run_dateLine_error]
    intro hcon
    cases hcon

theorem claim3_witness :
    366 + 2 ≤ ((List.range 370).map (fun j : ℕ => (j : ℚ))).length ∧
    366 + 2 ≤ (List.replicate 370 (3 : ℚ)).length ∧
    2 ≤ 2 ∧
    183 ≤ (annual_ipgp ((List.range 370).map (fun j : ℕ => (j : ℚ)))
        (List.replicate 370 (3 : ℚ)) 2015 2).d.length := by
  have h1 : 366 + 2 ≤ ((List.range 370).map (fun j : ℕ => (j : ℚ))).length := by
    rw [List.length_map, List.length_range]
    omega
  have h2 : 366 + 2 ≤ (List.replicate 370 (3 : ℚ)).length := by
    rw [List.length_replicate]
    omega
  exact ⟨h1, h2, le_refl 2,
    (claim3_typeerror_no_date_line _ _ 2015 2 h1 h2 (le_refl 2)).1⟩

/-- Claim C4: for every input and every slope_window, the slope sequence
has exactly 366 entries (independent of slope_window and of leap years);
entry i is the closed-form polyfit slope of cumulative[i:i+w] against
time[i:i+w], and whenever the window is non-degenerate that slope, with a
matching intercept, minimises the residual sum of squares — it is the
ordinary-least-squares degree-1 slope. -/
theorem claim4_slopes_ols (time data : List ℚ) (w : ℕ) :
    (slopesOf time data w).length = 366 ∧
    (∀ i, i < 366 → (slopesOf time data w).getD i 0
        = polyfitSlope (pySlice time i w) (pySlice (np_cumsum data) i w)) ∧
    (∀ i, i < 366 → (pySlice (np_cumsum data) i w).length = (pySlice time i w).length →
      lsqDenom (pySlice time i w) ≠ 0 →
      ∃ a, ∀ a2 b2,
        rss (pySlice time i w) (pySlice (np_cumsum data) i w) a
            ((slopesOf time data w).getD i 0)
          ≤ rss (pySlice time i w) (pySlice (np_cumsum data) i w) a2 b2) := by
  refine ⟨slopesOf_length time data w, fun i hi => slopesOf_getD time data w i hi, ?_⟩
  intro i hi hlen hD
  rw [slopesOf_getD time data w i hi]
  exact polyfitSlope_isOLS _ _ hlen hD

theorem claim4_witness :
    (0 : ℕ) < 366 ∧
    (pySlice (np_cumsum [1, 2, 3]) 0 2).length = (pySlice [0, 1, 7] 0 2).length ∧
    lsqDenom (pySlice [0, 1, 7] 0 2) ≠ 0 ∧
    (∃ a, ∀ a2 b2,
      rss (pySlice [0, 1, 7] 0 2) (pySlice (np_cumsum [1, 2, 3]) 0 2) a
          ((slopesOf [0, 1, 7] [1, 2, 3] 2).getD 0 0)
        ≤ rss (pySlice [0, 1, 7] 0 2) (pySlice (np_cumsum [1, 2, 3]) 0 2) a2 b2) := by
  have hps : pySlice [(0 : ℚ), 1, 7] 0 2 = [0, 1] := rfl
  have hcs : np_cumsum [(1 : ℚ), 2, 3] = [1, 3, 6] := by
    rw [np_cumsum]
    show (0 + 1 : ℚ) :: (0 + 1 + 2 : ℚ) :: [(0 + 1 + 2 + 3 : ℚ)] = [1, 3, 6]
    norm_num
  have hpy : pySlice (np_cumsum [(1 : ℚ), 2, 3]) 0 2 = [1, 3] := by
    rw [hcs]
    rfl
  have hD : lsqDenom (pySlice [(0 : ℚ), 1, 7] 0 2) ≠ 0 := by
    rw [hps, lsqDenom]
    norm_num
  have hlen : (pySlice (np_cumsum [(1 : ℚ), 2, 3]) 0 2).length
      = (pySlice [(0 : ℚ), 1, 7] 0 2).length := by
    rw [hps, hpy]
    rfl
  exact ⟨by norm_num, hlen, hD,
    (claim4_slopes_ols [0, 1, 7] [1, 2, 3] 2).2.2 0 (by norm_num) hlen hD⟩

/-- Claim C5: for every detected index 0 ≤ d ≤ 365 and every year ≥ 1, the
string produced by line 71 equals January 1 of that year plus d days
(plain calendar walk) formatted as zero-padded year/month/day; in
particular year 2012 with index 45 yields 2012/02/15. -/
theorem claim5_date_format :
    (∀ y d, 1 ≤ y → d ≤ 365 → dateStrOfIndex y d = formatYMD (jan1PlusDays y d)) ∧
    dateStrOfIndex 2012 45 = "2012/02/15" := by
  constructor
  · intro y d hy hd
    rw [dateStrOfIndex, ord2ymd_toordinalJan1 y d hy hd]
  · rfl

theorem claim5_witness :
    1 ≤ 2012 ∧ 45 ≤ 365 ∧ dateStrOfIndex 2012 45 = formatYMD (jan1PlusDays 2012 45) :=
  ⟨by decide, by decide, claim5_date_format.1 2012 45 (by decide) (by decide)⟩

/-- Claim C6: for every slope sequence of 366 values, at least 183 of the
indices (at least half) satisfy slope[i] >= median, so the qualifying index
set is never empty and the failure case "no index satisfies the threshold"
is unreachable. -/
theorem claim6_nonempty (sl : List ℚ) (h : sl.length = 366) :
    183 ≤ ((List.range 366).filter (fun i => np_median sl ≤ sl.getD i 0)).length ∧
    (List.range 366).filter (fun i => np_median sl ≤ sl.getD i 0) ≠ [] := by
  have h1 := length_filter_range_getD sl (fun x => decide (np_median sl ≤ x))
  rw [h] at h1
  have h2 := @upper_half_ge_median sl (by omega) (by omega)
  rw [h] at h2
  have h3 : 183 ≤ sl.countP (fun x => decide (np_median sl ≤ x)) := by omega
  have h4 : 183 ≤ ((List.range 366).filter (fun i => np_median sl ≤ sl.getD i 0)).length :=
    le_trans h3 (le_of_eq h1.symm)
  refine ⟨h4, ?_⟩
  intro hnil
  rw [hnil] at h4
  simp at h4

theorem claim6_witness :
    (List.replicate 366 (0 : ℚ)).length = 366 ∧
    (List.range 366).filter
        (fun i => np_median (List.replicate 366 (0 : ℚ))
          ≤ (List.replicate 366 (0 : ℚ)).getD i 0) ≠ [] := by
  have h : (List.replicate 366 (0 : ℚ)).length = 366 := by
    rw [List.length_replicate]
  exact ⟨h, (claim6_nonempty _ h).2⟩

/-- Claim C7: if time and data have length at least 366 + slope_window,
then for every i ≤ 365 the slice [i : i+slope_window] lies within bounds
and both windows passed to the fit hold exactly slope_window samples. -/
theorem claim7_window_bounds (time data : List ℚ) (w : ℕ)
    (htime : 366 + w ≤ time.length) (hdata : 366 + w ≤ data.length) :
    ∀ i, i ≤ 365 → i + w ≤ time.length ∧ i + w ≤ data.length ∧
      (pySlice time i w).length = w ∧ (pySlice (np_cumsum data) i w).length = w := by
  intro i hi
  refine ⟨by omega, by omega, ?_, ?_⟩
  · rw [pySlice, List.length_take, List.length_drop]
    omega
  · rw [pySlice, List.length_take, List.length_drop, np_cumsum_length]
    omega

theorem claim7_witness :
    366 + 5 ≤ (List.replicate 371 (0 : ℚ)).length ∧
    366 + 5 ≤ (List.replicate 371 (1 : ℚ)).length ∧
    365 ≤ 365 ∧
    (pySlice (List.replicate 371 (0 : ℚ)) 365 5).length = 5 := by
  have h1 : 366 + 5 ≤ (List.replicate 371 (0 : ℚ)).length := by
    rw [List.length_replicate]
  have h2 : 366 + 5 ≤ (List.replicate 371 (1 : ℚ)).length := by
    rw [List.length_replicate]
  exact ⟨h1, h2, le_refl 365,
    (claim7_window_bounds _ _ 5 h1 h2 365 (le_refl 365)).2.2.1⟩

/-- Claim C8: for a regularly daily-spaced time axis and constant positive
data over at least 366 + slope_window days, every windowed slope is the
same constant, the median equals that constant, the qualifying set
slope >= median is the whole range 0..365, and the first qualifying index
is 0. -/
theorem claim8_constant_signal (t0 c : ℚ) (w N y : ℕ)
    (hc : 0 < c) (hw : 2 ≤ w) (hN : 366 + w ≤ N) :
    (annual_ipgp ((List.range N).map (fun j : ℕ => t0 + (j : ℚ)))
        (List.replicate N c) y w).slopes = List.replicate 366 c ∧
    (annual_ipgp ((List.range N).map (fun j : ℕ => t0 + (j : ℚ)))
        (List.replicate N c) y w).median_slope = c ∧
    (annual_ipgp ((List.range N).map (fun j : ℕ => t0 + (j : ℚ)))
        (List.replicate N c) y w).d = List.range 366 ∧
    ((annual_ipgp ((List.range N).map (fun j : ℕ => t0 + (j : ℚ)))
        (List.replicate N c) y w).d).headD 0 = 0 := by
  obtain ⟨h1, h2, h3⟩ := const_run_d t0 c w N hw hN
  refine ⟨?_, ?_, ?_, ?_⟩
  · rw [run_slopes]
    exact h1
  · rw [run_median]
    exact h2
  · rw [run_d]
    exact h3
  · rw [run_d, h3]
    decide

theorem claim8_witness :
    (0 : ℚ) < 7 ∧ 2 ≤ 3 ∧ 366 + 3 ≤ 370 ∧
    (annual_ipgp ((List.range 370).map (fun j : ℕ => (1 / 2 : ℚ) + (j : ℚ)))
        (List.replicate 370 7) 2000 3).d = List.range 366 :=
  ⟨by norm_num, by norm_num, by norm_num,
    (claim8_constant_signal (1 / 2) 7 3 370 2000 (by norm_num) (by norm_num)
      (by norm_num)).2.2.1⟩

/-- Claim C9: the detector is deterministic — two calls with identical
time, data, year and slope_window arguments produce identical runs, in
particular identical index arrays and identical date strings; the
embedding is a pure function of its arguments with no hidden state. -/
theorem claim9_deterministic (t1 d1 : List ℚ) (y1 w1 : ℕ) (t2 d2 : List ℚ) (y2 w2 : ℕ)
    (ht : t1 = t2) (hd : d1 = d2) (hy : y1 = y2) (hw : w1 = w2) :
    annual_ipgp t1 d1 y1 w1 = annual_ipgp t2 d2 y2 w2 ∧
    (annual_ipgp t1 d1 y1 w1).d = (annual_ipgp t2 d2 y2 w2).d ∧
    (annual_ipgp t1 d1 y1 w1).dateLine = (annual_ipgp t2 d2 y2 w2).dateLine := by
  subst ht
  subst hd
  subst hy
  subst hw
  exact ⟨rfl, rfl, rfl⟩

theorem claim9_witness :
    [(1 : ℚ)] = [(1 : ℚ)] ∧ [(2 : ℚ)] = [(2 : ℚ)] ∧ 5 = 5 ∧ 3 = 3 ∧
    annual_ipgp [(1 : ℚ)] [(2 : ℚ)] 5 3 = annual_ipgp [(1 : ℚ)] [(2 : ℚ)] 5 3 :=
  ⟨rfl, rfl, rfl, rfl,
    (claim9_deterministic [(1 : ℚ)] [(2 : ℚ)] 5 3 [(1 : ℚ)] [(2 : ℚ)] 5 3
      rfl rfl rfl rfl).1⟩

/-- Claim C10: for every valid input, every index in the qualifying array
d — in particular the first one, the detected index — lies in 0..365, and
d is non-empty. -/
theorem claim10_index_range (time data : List ℚ) (year w : ℕ)
    (htime : 366 + w ≤ time.length) (hdata : 366 + w ≤ data.length) (hw : 2 ≤ w) :
    (annual_ipgp time data year w).d ≠ [] ∧
    ∀ i ∈ (annual_ipgp time data year w).d, i ≤ 365 := by
  constructor
  · rw [run_d]
    intro hnil
    have hc := dOf_count time data w
    rw [hnil] at hc
    simp at hc
  · rw [run_d]
    exact dOf_mem_le time data w

theorem claim10_witness :
    366 + 6 ≤ (List.replicate 372 (0 : ℚ)).length ∧
    366 + 6 ≤ (List.replicate 372 (4 : ℚ)).length ∧
    2 ≤ 6 ∧
    (annual_ipgp (List.replicate 372 (0 : ℚ)) (List.replicate 372 (4 : ℚ)) 1999 6).d
      ≠ [] := by
  have h1 : 366 + 6 ≤ (List.replicate 372 (0 : ℚ)).length := by
    rw [List.length_replicate]
  have h2 : 366 + 6 ≤ (List.replicate 372 (4 : ℚ)).length := by
    rw [List.length_replicate]
  exact ⟨h1, h2, by omega,
    (claim10_index_range _ _ 1999 6 h1 h2 (by omega)).1⟩

end IPGP
